import Mathlib

/-! Maptracker configuration (pintracker/maptracker/config.go).

A shallow embedding of the maptracker `Config` type and of its methods
`Default`, `ApplyEnvVars`, `Validate`, `LoadJSON`, `applyJSONConfig`,
`ToJSON` and `toJSONConfig`, followed by the properties proved about them.

Conventions.
* A Go method with receiver `cfg *Config` that mutates the receiver and
  returns `error` becomes a function `Config S → Config S × Error`: the first
  component is the receiver after the call, the second the returned error.
* Go's `int` is embedded as `Int`. The file performs no arithmetic on the
  fields, only comparisons and assignments, so no wrap-around can occur.
* The embedded struct `config.Saver` is declared outside this file; it is
  kept as a field of an arbitrary type `S`, which no method here touches.
-/

namespace Maptracker

/-- Go value of type `error`: `none` is `nil`, `some msg` an error with text `msg`. -/
abbrev Error := Option String

/-- Constant `configKey`. -/
def configKey : String := "maptracker"

/-- Constant `envConfigKey`. -/
def envConfigKey : String := "cluster_maptracker"

/-- Constant `DefaultMaxPinQueueSize`. -/
def DefaultMaxPinQueueSize : Int := 1000000

/-- Constant `DefaultConcurrentPins`. -/
def DefaultConcurrentPins : Int := 10

/-- Struct `Config`: the embedded `config.Saver` and the two integer fields. -/
structure Config (S : Type) where
  Saver : S
  MaxPinQueueSize : Int
  ConcurrentPins : Int
deriving DecidableEq, Repr

/-- Struct `jsonConfig`, the form in which a `Config` is read and written. The
field tags are `max_pin_queue_size,omitempty` and `concurrent_pins`. -/
structure jsonConfig where
  MaxPinQueueSize : Int
  ConcurrentPins : Int
deriving DecidableEq, Repr

/-- The zero value `&jsonConfig{}` that `LoadJSON` decodes into. -/
def jsonConfig.zero : jsonConfig :=
  { MaxPinQueueSize := 0, ConcurrentPins := 0 }

/-- What a decoder finds for one integer key of its input: the key is not
there, it holds an integer that fits Go's `int`, or it holds something that
cannot be stored in an `int` field (a string, a fraction, a number out of
range). -/
inductive Field where
  | absent
  | num (v : Int)
  | mistyped
deriving DecidableEq, Repr

/-- The bytes handed to `LoadJSON`, as `json.Unmarshal` sees them when it
decodes into a `jsonConfig`: either they are not a JSON text it can decode
into a struct at all, or they are an object, of which only the keys
`max_pin_queue_size` and `concurrent_pins` matter. -/
inductive Raw where
  | malformed
  | object (max_pin_queue_size concurrent_pins : Field)
deriving DecidableEq, Repr

/-- The process environment as `envconfig.Process` sees it for a `jsonConfig`
under the key `envConfigKey`: one variable per struct field. -/
structure Env where
  MaxPinQueueSize : Field
  ConcurrentPins : Field
deriving DecidableEq, Repr

/-- Library call `json.Unmarshal(raw, jcfg)`: an integer found under a key is
stored in the matching field, a missing key leaves the field as it was, and a
value that does not fit the field is skipped and reported as an error once
decoding has finished. Input that is no JSON is an error and stores nothing. -/
def jsonUnmarshal (raw : Raw) (jcfg : jsonConfig) : jsonConfig × Error :=
  match raw with
  | .malformed => (jcfg, some "invalid character looking for beginning of value")
  | .object m c =>
    let j1 : jsonConfig × Error :=
      match m with
      | .absent => (jcfg, none)
      | .num v => ({ jcfg with MaxPinQueueSize := v }, none)
      | .mistyped =>
        (jcfg, some "json: cannot unmarshal value into Go struct field jsonConfig.max_pin_queue_size of type int")
    match c with
    | .absent => j1
    | .num v => ({ j1.1 with ConcurrentPins := v }, j1.2)
    | .mistyped =>
      (j1.1, match j1.2 with
        | some e => some e
        | none =>
          some "json: cannot unmarshal value into Go struct field jsonConfig.concurrent_pins of type int")

/-- Library call `json.MarshalIndent` on a `jsonConfig`, as the field tags
direct it: `max_pin_queue_size` carries `omitempty` and is left out when the
field is zero, `concurrent_pins` is always written. Encoding two integers
cannot fail. -/
def jsonMarshal (jcfg : jsonConfig) : Raw × Error :=
  (.object (if jcfg.MaxPinQueueSize = 0 then .absent else .num jcfg.MaxPinQueueSize)
      (.num jcfg.ConcurrentPins), none)

/-- Library call `envconfig.Process(envConfigKey, jcfg)`: the fields are
visited in declaration order; a variable that is not set leaves its field as
it was, one holding an integer overwrites the field, and one that does not
parse as an integer stops the processing with an error. -/
def envconfigProcess (env : Env) (jcfg : jsonConfig) : jsonConfig × Error :=
  match env.MaxPinQueueSize with
  | .mistyped => (jcfg, some "envconfig.Process: assigning MaxPinQueueSize: converting to int")
  | m =>
    let j1 : jsonConfig :=
      match m with
      | .num v => { jcfg with MaxPinQueueSize := v }
      | _ => jcfg
    match env.ConcurrentPins with
    | .mistyped => (j1, some "envconfig.Process: assigning ConcurrentPins: converting to int")
    | .num v => ({ j1 with ConcurrentPins := v }, none)
    | .absent => (j1, none)

/-- Modelled from the spec: the helper `config.SetIfNotDefault(src, dest)` of
the repository's `config` package is not among the sources at hand. As its
name says, and as `LoadJSON` (which calls `Default` first so that keys left
out keep their defaults) and `toJSONConfig` (which leaves a default
`MaxPinQueueSize` at zero) rely on, for an `int` it stores `src` in `dest`
when `src` is not the zero value of the type and leaves `dest` alone
otherwise. The result is the content of `dest` after the call. -/
def SetIfNotDefault (src dest : Int) : Int :=
  if src ≠ 0 then src else dest

variable {S : Type}

/-- Method `ConfigKey`. -/
def Config.ConfigKey (_cfg : Config S) : String := configKey

/-- Method `Default`: set both fields to their default constants, return nil. -/
def Config.Default (cfg : Config S) : Config S × Error :=
  let cfg := { cfg with MaxPinQueueSize := DefaultMaxPinQueueSize }
  let cfg := { cfg with ConcurrentPins := DefaultConcurrentPins }
  (cfg, none)

/-- Method `Validate`. It does not modify the receiver. -/
def Config.Validate (cfg : Config S) : Error :=
  if cfg.MaxPinQueueSize ≤ 0 then
    some "maptracker.max_pin_queue_size too low"
  else if cfg.ConcurrentPins ≤ 0 then
    some "maptracker.concurrent_pins is too low"
  else
    none

/-- Method `applyJSONConfig`. -/
def Config.applyJSONConfig (cfg : Config S) (jcfg : jsonConfig) : Config S × Error :=
  let cfg := { cfg with MaxPinQueueSize := SetIfNotDefault jcfg.MaxPinQueueSize cfg.MaxPinQueueSize }
  let cfg := { cfg with ConcurrentPins := SetIfNotDefault jcfg.ConcurrentPins cfg.ConcurrentPins }
  (cfg, cfg.Validate)

/-- Method `toJSONConfig`. -/
def Config.toJSONConfig (cfg : Config S) : jsonConfig :=
  let jCfg : jsonConfig := { MaxPinQueueSize := 0, ConcurrentPins := cfg.ConcurrentPins }
  if cfg.MaxPinQueueSize ≠ DefaultMaxPinQueueSize then
    { jCfg with MaxPinQueueSize := cfg.MaxPinQueueSize }
  else
    jCfg

/-- Method `ApplyEnvVars`, with the environment it reads made explicit. -/
def Config.ApplyEnvVars (cfg : Config S) (env : Env) : Config S × Error :=
  let jcfg := cfg.toJSONConfig
  match envconfigProcess env jcfg with
  | (_, some err) => (cfg, some err)
  | (jcfg, none) => cfg.applyJSONConfig jcfg

/-- Method `LoadJSON`. -/
def Config.LoadJSON (cfg : Config S) (raw : Raw) : Config S × Error :=
  let jcfg : jsonConfig := jsonConfig.zero
  match jsonUnmarshal raw jcfg with
  | (_, some err) => (cfg, some err)
  | (jcfg, none) => (cfg.Default).1.applyJSONConfig jcfg

/-- Method `ToJSON`: the helper `config.DefaultJSONMarshal` it ends in is a
plain indented `json.MarshalIndent` of the `jsonConfig`. -/
def Config.ToJSON (cfg : Config S) : Raw × Error :=
  let jcfg := cfg.toJSONConfig
  jsonMarshal jcfg

/-- A configuration with both fields positive. -/
def Config.Valid (cfg : Config S) : Prop :=
  0 < cfg.MaxPinQueueSize ∧ 0 < cfg.ConcurrentPins

instance (cfg : Config S) : Decidable cfg.Valid := by
  unfold Config.Valid; infer_instance

/-- An environment that supplies the given integers and nothing else. -/
def Env.ofInts (m c : Option Int) : Env :=
  { MaxPinQueueSize := match m with
      | some v => .num v
      | none => .absent
    ConcurrentPins := match c with
      | some v => .num v
      | none => .absent }

/-- The environment in which neither variable is set. -/
def Env.empty : Env :=
  { MaxPinQueueSize := .absent, ConcurrentPins := .absent }

/-- Sample configurations used to instantiate the theorems below. -/
def sampleDefaultQueue : Config Unit := ⟨(), 1000000, 3⟩

/-- A valid configuration whose fields both differ from the defaults. -/
def sampleCustom : Config Unit := ⟨(), 250, 4⟩

/-- A configuration that does not validate. -/
def sampleInvalid : Config Unit := ⟨(), -4, 0⟩

/-! ## Basic facts about the building blocks -/

theorem SetIfNotDefault_zero (d : Int) : SetIfNotDefault 0 d = d := by
  simp [SetIfNotDefault]

theorem SetIfNotDefault_of_ne_zero (s d : Int) (h : s ≠ 0) : SetIfNotDefault s d = s := by
  simp [SetIfNotDefault, h]

theorem Validate_eq_none_iff (c : Config S) : c.Validate = none ↔ c.Valid := by
  unfold Config.Validate Config.Valid
  constructor
  · intro h
    split_ifs at h with h1 h2
    exact ⟨by omega, by omega⟩
  · rintro ⟨h1, h2⟩
    rw [if_neg (by omega), if_neg (by omega)]

theorem applyJSONConfig_snd (cfg : Config S) (jcfg : jsonConfig) :
    (cfg.applyJSONConfig jcfg).2 = (cfg.applyJSONConfig jcfg).1.Validate := rfl

theorem applyJSONConfig_fields (cfg : Config S) (jcfg : jsonConfig) :
    (cfg.applyJSONConfig jcfg).1 =
      { Saver := cfg.Saver
        MaxPinQueueSize := SetIfNotDefault jcfg.MaxPinQueueSize cfg.MaxPinQueueSize
        ConcurrentPins := SetIfNotDefault jcfg.ConcurrentPins cfg.ConcurrentPins } := rfl

theorem applyJSONConfig_toJSONConfig (c : Config S) :
    c.applyJSONConfig c.toJSONConfig = (c, c.Validate) := by
  have h1 : SetIfNotDefault c.toJSONConfig.MaxPinQueueSize c.MaxPinQueueSize = c.MaxPinQueueSize := by
    unfold Config.toJSONConfig SetIfNotDefault
    split_ifs <;> simp_all
  have h2 : SetIfNotDefault c.toJSONConfig.ConcurrentPins c.ConcurrentPins = c.ConcurrentPins := by
    unfold Config.toJSONConfig SetIfNotDefault
    split_ifs <;> simp_all
  have h : (c.applyJSONConfig c.toJSONConfig).1 = c := by
    rw [applyJSONConfig_fields, h1, h2]
  rw [Prod.ext_iff]
  exact ⟨h, by rw [applyJSONConfig_snd, h]⟩

theorem envconfigProcess_empty (j : jsonConfig) : envconfigProcess Env.empty j = (j, none) := rfl

theorem envconfigProcess_ofInts (m q : Option Int) (j : jsonConfig) :
    envconfigProcess (Env.ofInts m q) j =
      ({ MaxPinQueueSize := m.getD j.MaxPinQueueSize
         ConcurrentPins := q.getD j.ConcurrentPins }, none) := by
  cases m <;> cases q <;> rfl

theorem LoadJSON_of_unmarshal_ok (d : Config S) (raw : Raw)
    (h : (jsonUnmarshal raw jsonConfig.zero).2 = none) :
    d.LoadJSON raw = (d.Default).1.applyJSONConfig (jsonUnmarshal raw jsonConfig.zero).1 := by
  unfold Config.LoadJSON
  simp only []
  rcases hj : jsonUnmarshal raw jsonConfig.zero with ⟨j, e⟩
  rw [hj] at h
  simp only at h
  subst h
  rfl

theorem ApplyEnvVars_ofInts (c : Config S) (m q : Option Int) :
    c.ApplyEnvVars (Env.ofInts m q) =
      c.applyJSONConfig
        { MaxPinQueueSize := m.getD c.toJSONConfig.MaxPinQueueSize
          ConcurrentPins := q.getD c.toJSONConfig.ConcurrentPins } := by
  unfold Config.ApplyEnvVars
  simp only [envconfigProcess_ofInts]

theorem toJSONConfig_MaxPinQueueSize (c : Config S) :
    SetIfNotDefault c.toJSONConfig.MaxPinQueueSize c.MaxPinQueueSize = c.MaxPinQueueSize := by
  unfold Config.toJSONConfig SetIfNotDefault
  split_ifs <;> simp_all

theorem toJSONConfig_ConcurrentPins (c : Config S) :
    c.toJSONConfig.ConcurrentPins = c.ConcurrentPins := by
  unfold Config.toJSONConfig
  split_ifs <;> rfl

theorem jsonUnmarshal_marshal (c : Config S) :
    jsonUnmarshal (jsonMarshal c.toJSONConfig).1 jsonConfig.zero = (c.toJSONConfig, none) := by
  unfold jsonMarshal jsonUnmarshal jsonConfig.zero
  by_cases h : c.toJSONConfig.MaxPinQueueSize = 0
  · simp only [h, if_true]
    rw [Prod.ext_iff]
    refine ⟨?_, rfl⟩
    cases hj : c.toJSONConfig
    rw [hj] at h
    simp only at h
    simp [h]
  · simp only [h, if_false]

theorem applyJSONConfig_error_of_neg_left (cfg : Config S) (j : jsonConfig)
    (h : j.MaxPinQueueSize < 0) : (cfg.applyJSONConfig j).2 ≠ none := by
  rw [applyJSONConfig_snd, Ne, Validate_eq_none_iff, applyJSONConfig_fields]
  unfold Config.Valid
  dsimp only
  rintro ⟨h1, _⟩
  rw [SetIfNotDefault_of_ne_zero _ _ (by omega)] at h1
  omega

theorem applyJSONConfig_error_of_neg_right (cfg : Config S) (j : jsonConfig)
    (h : j.ConcurrentPins < 0) : (cfg.applyJSONConfig j).2 ≠ none := by
  rw [applyJSONConfig_snd, Ne, Validate_eq_none_iff, applyJSONConfig_fields]
  unfold Config.Valid
  dsimp only
  rintro ⟨_, h2⟩
  rw [SetIfNotDefault_of_ne_zero _ _ (by omega)] at h2
  omega

theorem ApplyEnvVars_fields_ofInts (c : Config S) (m q : Option Int) :
    (∀ v, m = some v → v ≠ 0 →
      (c.ApplyEnvVars (Env.ofInts m q)).1.MaxPinQueueSize = v) ∧
    (∀ v, q = some v → v ≠ 0 →
      (c.ApplyEnvVars (Env.ofInts m q)).1.ConcurrentPins = v) ∧
    (m = none ∨ m = some 0 →
      (c.ApplyEnvVars (Env.ofInts m q)).1.MaxPinQueueSize = c.MaxPinQueueSize) ∧
    (q = none ∨ q = some 0 →
      (c.ApplyEnvVars (Env.ofInts m q)).1.ConcurrentPins = c.ConcurrentPins) := by
  rw [ApplyEnvVars_ofInts, applyJSONConfig_fields]
  dsimp only
  refine ⟨?_, ?_, ?_, ?_⟩
  · rintro v rfl hv
    exact SetIfNotDefault_of_ne_zero _ _ hv
  · rintro v rfl hv
    exact SetIfNotDefault_of_ne_zero _ _ hv
  · rintro (rfl | rfl)
    · exact toJSONConfig_MaxPinQueueSize c
    · exact SetIfNotDefault_zero _
  · rintro (rfl | rfl)
    · show SetIfNotDefault c.toJSONConfig.ConcurrentPins c.ConcurrentPins = _
      rw [toJSONConfig_ConcurrentPins]
      unfold SetIfNotDefault
      split_ifs <;> simp_all
    · exact SetIfNotDefault_zero _

theorem ApplyEnvVars_of_mistyped (c : Config S) (env : Env)
    (h : env.MaxPinQueueSize = .mistyped ∨ env.ConcurrentPins = .mistyped) :
    (c.ApplyEnvVars env).1 = c ∧ (c.ApplyEnvVars env).2 ≠ none := by
  rcases env with ⟨m, q⟩
  dsimp only at h
  rcases h with rfl | rfl
  · exact ⟨rfl, by simp [Config.ApplyEnvVars, envconfigProcess]⟩
  · cases m <;> exact ⟨rfl, by simp [Config.ApplyEnvVars, envconfigProcess]⟩

/-! ## The claims -/

/-- C1: `Validate` returns no error if and only if `MaxPinQueueSize > 0` and
`ConcurrentPins > 0`, and it returns an error in every other case. -/
theorem Validate_nil_iff_positive (c : Config S) :
    (c.Validate = none ↔ c.MaxPinQueueSize > 0 ∧ c.ConcurrentPins > 0) ∧
    (c.Validate.isSome = true ↔ ¬ (c.MaxPinQueueSize > 0 ∧ c.ConcurrentPins > 0)) := by
  have h := Validate_eq_none_iff c
  unfold Config.Valid at h
  refine ⟨h, ?_⟩
  rw [← h]
  cases c.Validate <;> simp

/-- C2: round trip. For a configuration `c` that passes `Validate` and any
starting configuration `d`, running `Default` and then `applyJSONConfig` on
`toJSONConfig c` returns no error and leaves `d` with the two fields of `c`;
`ToJSON` does not fail, and `LoadJSON` of what it writes is that same run. -/
theorem LoadJSON_ToJSON_roundtrip (c d : Config S) (h : c.Validate = none) :
    ((d.Default).1.applyJSONConfig c.toJSONConfig).2 = none ∧
    ((d.Default).1.applyJSONConfig c.toJSONConfig).1.MaxPinQueueSize = c.MaxPinQueueSize ∧
    ((d.Default).1.applyJSONConfig c.toJSONConfig).1.ConcurrentPins = c.ConcurrentPins ∧
    c.ToJSON.2 = none ∧
    d.LoadJSON c.ToJSON.1 = (d.Default).1.applyJSONConfig c.toJSONConfig := by
  obtain ⟨hm, hc⟩ := (Validate_eq_none_iff c).1 h
  have e1 : ((d.Default).1.applyJSONConfig c.toJSONConfig).1.MaxPinQueueSize
      = c.MaxPinQueueSize := by
    rw [applyJSONConfig_fields]
    show SetIfNotDefault c.toJSONConfig.MaxPinQueueSize DefaultMaxPinQueueSize = _
    unfold Config.toJSONConfig SetIfNotDefault
    split_ifs <;> simp_all
  have e2 : ((d.Default).1.applyJSONConfig c.toJSONConfig).1.ConcurrentPins
      = c.ConcurrentPins := by
    rw [applyJSONConfig_fields, toJSONConfig_ConcurrentPins]
    exact SetIfNotDefault_of_ne_zero _ _ (by omega)
  refine ⟨?_, e1, e2, rfl, ?_⟩
  · rw [applyJSONConfig_snd, Validate_eq_none_iff]
    exact ⟨by rw [e1]; exact hm, by rw [e2]; exact hc⟩
  · have hu := jsonUnmarshal_marshal c
    have := LoadJSON_of_unmarshal_ok d (jsonMarshal c.toJSONConfig).1 (by rw [hu])
    rw [hu] at this
    exact this

/-- The round trip of C2 on a valid configuration whose queue size is the
default (and is therefore left out of the JSON), loaded over an invalid one. -/
theorem LoadJSON_ToJSON_roundtrip_witness :
    sampleDefaultQueue.Validate = none ∧
    (((sampleInvalid.Default).1.applyJSONConfig sampleDefaultQueue.toJSONConfig).2 = none ∧
     ((sampleInvalid.Default).1.applyJSONConfig sampleDefaultQueue.toJSONConfig).1.MaxPinQueueSize
        = sampleDefaultQueue.MaxPinQueueSize ∧
     ((sampleInvalid.Default).1.applyJSONConfig sampleDefaultQueue.toJSONConfig).1.ConcurrentPins
        = sampleDefaultQueue.ConcurrentPins ∧
     sampleDefaultQueue.ToJSON.2 = none ∧
     sampleInvalid.LoadJSON sampleDefaultQueue.ToJSON.1
        = (sampleInvalid.Default).1.applyJSONConfig sampleDefaultQueue.toJSONConfig) :=
  ⟨by decide, LoadJSON_ToJSON_roundtrip sampleDefaultQueue sampleInvalid (by decide)⟩

/-- C3: `Default` returns no error and leaves the configuration with
`MaxPinQueueSize = 1000000` and `ConcurrentPins = 10`, whatever the fields
held before; the embedded `Saver` is not touched. -/
theorem Default_sets_defaults (c : Config S) :
    (c.Default).2 = none ∧
    (c.Default).1.MaxPinQueueSize = 1000000 ∧
    (c.Default).1.ConcurrentPins = 10 ∧
    (c.Default).1.Saver = c.Saver :=
  ⟨rfl, rfl, rfl, rfl⟩

/-- C4, as stated, fails: a JSON object that explicitly gives `concurrent_pins`
(or `max_pin_queue_size`) the value 0, which is not `> 0`, is loaded without
error, and the field ends as its default. -/
theorem LoadJSON_explicit_zero_no_error :
    ¬ ((0 : Int) > 0) ∧
    sampleCustom.LoadJSON (.object .absent (.num 0)) = (⟨(), 1000000, 10⟩, none) ∧
    sampleCustom.LoadJSON (.object (.num 0) .absent) = (⟨(), 1000000, 10⟩, none) := by
  decide

/-- C4, amended: a JSON object that explicitly gives `max_pin_queue_size` or
`concurrent_pins` a negative value makes `LoadJSON` return an error, whatever
the other key holds. An explicit 0 is loaded exactly as if the key were
absent: provided the other key decodes, the field given as 0 ends as its
default (1000000, respectively 10), and when the other key is absent or
positive `LoadJSON` returns no error. -/
theorem LoadJSON_rejects_negative (d : Config S) (raw : Raw) (v : Int) (f : Field)
    (hraw : raw = .object (.num v) f ∨ raw = .object f (.num v)) (hv : v < 0) :
    (d.LoadJSON raw).2 ≠ none ∧
    d.LoadJSON (.object (.num 0) f) = d.LoadJSON (.object .absent f) ∧
    d.LoadJSON (.object f (.num 0)) = d.LoadJSON (.object f .absent) ∧
    (f ≠ .mistyped → (d.LoadJSON (.object (.num 0) f)).1.MaxPinQueueSize = 1000000) ∧
    (f ≠ .mistyped → (d.LoadJSON (.object f (.num 0))).1.ConcurrentPins = 10) ∧
    ((f = .absent ∨ ∃ w, 0 < w ∧ f = .num w) →
      (d.LoadJSON (.object (.num 0) f)).2 = none ∧
      (d.LoadJSON (.object f (.num 0))).2 = none) := by
  refine ⟨?_, ?_, ?_, ?_, ?_, ?_⟩
  · rcases hraw with rfl | rfl
    · cases f with
      | absent => exact applyJSONConfig_error_of_neg_left (d.Default).1 ⟨v, 0⟩ hv
      | num w => exact applyJSONConfig_error_of_neg_left (d.Default).1 ⟨v, w⟩ hv
      | mistyped => simp [Config.LoadJSON, jsonUnmarshal]
    · cases f with
      | absent => exact applyJSONConfig_error_of_neg_right (d.Default).1 ⟨0, v⟩ hv
      | num w => exact applyJSONConfig_error_of_neg_right (d.Default).1 ⟨w, v⟩ hv
      | mistyped => simp [Config.LoadJSON, jsonUnmarshal]
  · cases f <;> rfl
  · cases f <;> rfl
  · intro hf
    cases f with
    | absent => rfl
    | num w => rfl
    | mistyped => exact absurd rfl hf
  · intro hf
    cases f with
    | absent => rfl
    | num w => rfl
    | mistyped => exact absurd rfl hf
  · rintro (rfl | ⟨w, hw, rfl⟩)
    · exact ⟨rfl, rfl⟩
    · have hw0 : w ≠ 0 := by omega
      constructor
      · show ((d.Default).1.applyJSONConfig ⟨0, w⟩).2 = none
        rw [applyJSONConfig_snd, Validate_eq_none_iff, applyJSONConfig_fields]
        unfold Config.Valid
        dsimp only
        rw [SetIfNotDefault_zero, SetIfNotDefault_of_ne_zero _ _ hw0]
        exact ⟨show (0 : Int) < DefaultMaxPinQueueSize by decide, hw⟩
      · show ((d.Default).1.applyJSONConfig ⟨w, 0⟩).2 = none
        rw [applyJSONConfig_snd, Validate_eq_none_iff, applyJSONConfig_fields]
        unfold Config.Valid
        dsimp only
        rw [SetIfNotDefault_zero, SetIfNotDefault_of_ne_zero _ _ hw0]
        exact ⟨hw, show (0 : Int) < DefaultConcurrentPins by decide⟩

/-- The amended C4 on an object whose `concurrent_pins` is -2, and on objects
that give one key as 0 next to the other key as 7. -/
theorem LoadJSON_rejects_negative_witness :
    ((Raw.object (.num 7) (.num (-2)) = .object (.num (-2)) (.num 7) ∨
      Raw.object (.num 7) (.num (-2)) = .object (.num 7) (.num (-2))) ∧ (-2 : Int) < 0) ∧
    ((sampleCustom.LoadJSON (.object (.num 7) (.num (-2)))).2 ≠ none ∧
     sampleCustom.LoadJSON (.object (.num 0) (.num 7)) = sampleCustom.LoadJSON (.object .absent (.num 7)) ∧
     sampleCustom.LoadJSON (.object (.num 7) (.num 0)) = sampleCustom.LoadJSON (.object (.num 7) .absent) ∧
     (Field.num 7 ≠ .mistyped →
       (sampleCustom.LoadJSON (.object (.num 0) (.num 7))).1.MaxPinQueueSize = 1000000) ∧
     (Field.num 7 ≠ .mistyped →
       (sampleCustom.LoadJSON (.object (.num 7) (.num 0))).1.ConcurrentPins = 10) ∧
     ((Field.num 7 = .absent ∨ ∃ w, 0 < w ∧ Field.num 7 = .num w) →
       (sampleCustom.LoadJSON (.object (.num 0) (.num 7))).2 = none ∧
       (sampleCustom.LoadJSON (.object (.num 7) (.num 0))).2 = none)) ∧
    (Field.num 7 ≠ .mistyped ∧ (Field.num 7 = .absent ∨ ∃ w, 0 < w ∧ Field.num 7 = .num w)) ∧
    sampleCustom.LoadJSON (.object (.num 0) (.num 7)) = (⟨(), 1000000, 7⟩, none) ∧
    sampleCustom.LoadJSON (.object (.num 7) (.num 0)) = (⟨(), 7, 10⟩, none) :=
  ⟨⟨Or.inr rfl, by decide⟩,
    LoadJSON_rejects_negative sampleCustom (.object (.num 7) (.num (-2))) (-2) (.num 7)
      (Or.inr rfl) (by decide),
    ⟨by decide, Or.inr ⟨7, by decide, rfl⟩⟩, by decide, by decide⟩

/-- C5: at the environment that supplies the integer 0 for `concurrent_pins`
and nothing else, `ApplyEnvVars` on the configuration (250, 4) returns no
error and leaves `ConcurrentPins` at 4, not at the supplied 0; likewise for
`max_pin_queue_size` supplied as 0, which stays 250. The claim, and the doc
comment of `ApplyEnvVars` ("fills in any Config fields found as environment
variables"), say the field takes the supplied value. -/
theorem ApplyEnvVars_zero_not_applied :
    sampleCustom.ApplyEnvVars (Env.ofInts none (some 0)) = (⟨(), 250, 4⟩, none) ∧
    (sampleCustom.ApplyEnvVars (Env.ofInts none (some 0))).1.ConcurrentPins ≠ 0 ∧
    sampleCustom.ApplyEnvVars (Env.ofInts (some 0) none) = (⟨(), 250, 4⟩, none) ∧
    (sampleCustom.ApplyEnvVars (Env.ofInts (some 0) none)).1.MaxPinQueueSize ≠ 0 := by
  decide

/-- C6: whenever `applyJSONConfig`, `LoadJSON` or `ApplyEnvVars` returns no
error, the configuration it leaves has `MaxPinQueueSize > 0` and
`ConcurrentPins > 0`, and `Validate` on it returns no error. -/
theorem successful_load_is_valid (cfg out : Config S) (jcfg : jsonConfig) (raw : Raw) (env : Env)
    (h : cfg.applyJSONConfig jcfg = (out, none) ∨ cfg.LoadJSON raw = (out, none) ∨
      cfg.ApplyEnvVars env = (out, none)) :
    out.MaxPinQueueSize > 0 ∧ out.ConcurrentPins > 0 ∧ out.Validate = none := by
  have key : ∀ (c : Config S) (j : jsonConfig), c.applyJSONConfig j = (out, none) →
      out.Validate = none := by
    intro c j hj
    have h1 : (c.applyJSONConfig j).1 = out := by rw [hj]
    have h2 : (c.applyJSONConfig j).2 = none := by rw [hj]
    rw [applyJSONConfig_snd, h1] at h2
    exact h2
  have hv : out.Validate = none := by
    rcases h with h | h | h
    · exact key _ _ h
    · unfold Config.LoadJSON at h
      simp only [] at h
      rcases hj : jsonUnmarshal raw jsonConfig.zero with ⟨j, e⟩
      rw [hj] at h
      cases e with
      | none => exact key _ _ h
      | some e => simp at h
    · unfold Config.ApplyEnvVars at h
      simp only [] at h
      rcases hj : envconfigProcess env cfg.toJSONConfig with ⟨j, e⟩
      rw [hj] at h
      cases e with
      | none => exact key _ _ h
      | some e => simp at h
  obtain ⟨h1, h2⟩ := (Validate_eq_none_iff out).1 hv
  exact ⟨h1, h2, hv⟩

/-- C6 on one successful run of each of the three methods. -/
theorem successful_load_is_valid_witness :
    (sampleInvalid.applyJSONConfig ⟨8, 2⟩ = (⟨(), 8, 2⟩, none) ∧
     sampleInvalid.LoadJSON (.object .absent (.num 2)) = (⟨(), 1000000, 2⟩, none) ∧
     sampleCustom.ApplyEnvVars (Env.ofInts (some 9) none) = (⟨(), 9, 4⟩, none)) ∧
    (((8 : Int) > 0 ∧ (2 : Int) > 0 ∧ (⟨(), 8, 2⟩ : Config Unit).Validate = none) ∧
     ((1000000 : Int) > 0 ∧ (2 : Int) > 0 ∧ (⟨(), 1000000, 2⟩ : Config Unit).Validate = none) ∧
     ((9 : Int) > 0 ∧ (4 : Int) > 0 ∧ (⟨(), 9, 4⟩ : Config Unit).Validate = none)) :=
  ⟨by decide,
   successful_load_is_valid sampleInvalid ⟨(), 8, 2⟩ ⟨8, 2⟩ .malformed Env.empty
     (Or.inl (by decide)),
   successful_load_is_valid sampleInvalid ⟨(), 1000000, 2⟩ jsonConfig.zero
     (.object .absent (.num 2)) Env.empty (Or.inr (Or.inl (by decide))),
   successful_load_is_valid sampleCustom ⟨(), 9, 4⟩ jsonConfig.zero .malformed
     (Env.ofInts (some 9) none) (Or.inr (Or.inr (by decide)))⟩

/-- C8: with no relevant environment variable set, `envconfig.Process` leaves
the `jsonConfig` untouched and `ApplyEnvVars` is `applyJSONConfig` of
`toJSONConfig c` on `c`; for every `c`, valid or not, this leaves
`MaxPinQueueSize` and `ConcurrentPins` (indeed all of `c`) as they were and
returns an error exactly when `Validate c` does. -/
theorem ApplyEnvVars_without_env_changes_nothing (c : Config S) :
    (c.applyJSONConfig c.toJSONConfig).1.MaxPinQueueSize = c.MaxPinQueueSize ∧
    (c.applyJSONConfig c.toJSONConfig).1.ConcurrentPins = c.ConcurrentPins ∧
    ((c.applyJSONConfig c.toJSONConfig).2 ≠ none ↔ c.Validate ≠ none) ∧
    c.applyJSONConfig c.toJSONConfig = (c, c.Validate) ∧
    envconfigProcess Env.empty c.toJSONConfig = (c.toJSONConfig, none) ∧
    c.ApplyEnvVars Env.empty = c.applyJSONConfig c.toJSONConfig := by
  have h := applyJSONConfig_toJSONConfig c
  refine ⟨by rw [h], by rw [h], by rw [h], h, rfl, rfl⟩

/-- C9: for input that `json.Unmarshal` decodes without error, the fields and
the error that `LoadJSON` leaves do not depend on the configuration it is
called on; a key absent from the JSON ends as its default (1000000, 10); and
loading the empty object gives exactly the `Default` configuration with no
error. -/
theorem LoadJSON_depends_only_on_input (raw : Raw) (d1 d2 : Config S)
    (h : (jsonUnmarshal raw jsonConfig.zero).2 = none) :
    (d1.LoadJSON raw).1.MaxPinQueueSize = (d2.LoadJSON raw).1.MaxPinQueueSize ∧
    (d1.LoadJSON raw).1.ConcurrentPins = (d2.LoadJSON raw).1.ConcurrentPins ∧
    (d1.LoadJSON raw).2 = (d2.LoadJSON raw).2 ∧
    (∀ f, raw = .object .absent f → (d1.LoadJSON raw).1.MaxPinQueueSize = 1000000) ∧
    (∀ f, raw = .object f .absent → (d1.LoadJSON raw).1.ConcurrentPins = 10) ∧
    d1.LoadJSON (.object .absent .absent) = ((d1.Default).1, none) ∧
    (d1.LoadJSON (.object .absent .absent)).1.MaxPinQueueSize = 1000000 ∧
    (d1.LoadJSON (.object .absent .absent)).1.ConcurrentPins = 10 := by
  rw [LoadJSON_of_unmarshal_ok d1 raw h, LoadJSON_of_unmarshal_ok d2 raw h]
  refine ⟨rfl, rfl, ?_, ?_, ?_, rfl, rfl, rfl⟩
  · rw [applyJSONConfig_snd, applyJSONConfig_snd]
    rfl
  · rintro f rfl
    cases f <;> rfl
  · rintro f rfl
    cases f <;> rfl

/-- C9 on an object that only gives `concurrent_pins`, loaded into a valid and
into an invalid configuration. -/
theorem LoadJSON_depends_only_on_input_witness :
    (jsonUnmarshal (.object .absent (.num 3)) jsonConfig.zero).2 = none ∧
    sampleCustom.LoadJSON (.object .absent (.num 3)) = (⟨(), 1000000, 3⟩, none) ∧
    sampleInvalid.LoadJSON (.object .absent (.num 3)) = (⟨(), 1000000, 3⟩, none) ∧
    (sampleCustom.LoadJSON (.object .absent (.num 3))).1.MaxPinQueueSize
      = (sampleInvalid.LoadJSON (.object .absent (.num 3))).1.MaxPinQueueSize :=
  ⟨by decide, by decide, by decide,
   (LoadJSON_depends_only_on_input (.object .absent (.num 3)) sampleCustom sampleInvalid
      (by decide)).1⟩

end Maptracker
